import Mathlib

/-!
Verification of the brisect repository's path-planning, edge-detection and
boundary-tracing engine against its specification.

Shallow embedding conventions:
* Python float arithmetic is modelled by exact rational arithmetic (`ℚ`).
* Euclidean distances are carried as squared distances (`normSq`), since the
  square root of a rational is irrational in general; `d = 0 ↔ d² = 0` and
  `d = d' ↔ d² = d'²` for nonnegative distances, so the claims about
  distances being zero or equal transfer verbatim.
* `np.cos(rotation)` / `np.sin(rotation)` are carried as a pair of parameters
  `(c, s)`; a rotation angle of `0` is the pair `(1, 0)`, and a general
  rotation is any pair with `c^2 + s^2 = 1`.
* `while` loops are embedded as fuel-indexed recursion; the accumulated output
  is returned together with a flag recording whether the loop exited through
  its own condition (`true`) or by fuel exhaustion (`false`).  Safety
  invariants are proved for every fuel value, hence for the completed run.
* Hardware effects (stage move/stop commands, sensor acquisitions) are
  modelled as explicit event lists produced exactly where the source issues
  the corresponding calls.
-/

namespace Brisect

/-- 2-D coordinates (the sweep and the tracers operate on the first two stage
axes). -/
abbrev Vec2 := ℚ × ℚ

/-- Componentwise subtraction of coordinate vectors. -/
def sub (a b : Vec2) : Vec2 := (a.1 - b.1, a.2 - b.2)

/-- Dot product of coordinate vectors. -/
def dot (a b : Vec2) : ℚ := a.1 * b.1 + a.2 * b.2

/-- Scalar multiple of a coordinate vector. -/
def smul (t : ℚ) (v : Vec2) : Vec2 := (t * v.1, t * v.2)

/-- Squared Euclidean norm (`np.linalg.norm(v)**2`). -/
def normSq (v : Vec2) : ℚ := dot v v

/-- The clamping of `nearest_perc` in `analysis.dist_from_line`:
`nearest_perc[nearest_perc < 0.] = 0.; nearest_perc[nearest_perc > 1.] = 1.`. -/
def clamp01 (t : ℚ) : ℚ := if t < 0 then 0 else if t > 1 then 1 else t

/-- Embedding of `analysis.dist_from_line` for a single point, returning the
squared distance (the source returns `np.linalg.norm(v2 - nearest)`, the
square root of this value).  `v1 := seg_end - seg_start`,
`v2 := pt - seg_start`, `nearest_perc := (v1/‖v1‖)·(v2/‖v1‖) = v1·v2 / ‖v1‖²`,
clamped to `[0,1]`, and the result is the (squared) norm of
`v2 - nearest_perc * v1`. -/
def dist_from_line_sq (pt seg_start seg_end : Vec2) : ℚ :=
  normSq (sub (sub pt seg_start)
    (smul (clamp01 (dot (sub seg_end seg_start) (sub pt seg_start) /
      normSq (sub seg_end seg_start))) (sub seg_end seg_start)))

/-- Embedding of `analysis.lst_dist_from_rect` for a single point, returning
the squared least distance.  The corners are
`corner1 = origin`, `corner2 = origin + (width,0)·R`,
`corner3 = origin + (width,height)·R`, `corner4 = origin + (0,height)·R`
with the row-vector rotation matrix `R = [[c, s], [-s, c]]`
(`c = cos rotation`, `s = sin rotation`); the result is the minimum of the
four edge distances (minimum of square roots = square root of minimum). -/
def lst_dist_from_rect_sq (pt : Vec2) (origin_x origin_y width height c s : ℚ) : ℚ :=
  min
    (min (dist_from_line_sq pt (origin_x, origin_y)
            (origin_x + width * c, origin_y + width * s))
         (dist_from_line_sq pt (origin_x + width * c, origin_y + width * s)
            (origin_x + width * c - height * s, origin_y + width * s + height * c)))
    (min (dist_from_line_sq pt (origin_x + width * c - height * s, origin_y + width * s + height * c)
            (origin_x - height * s, origin_y + height * c))
         (dist_from_line_sq pt (origin_x - height * s, origin_y + height * c)
            (origin_x, origin_y)))

/-- Embedding of `helpers.within_radius` for a single coordinate:
`‖coords - origin‖ < radius`.  Compared on squared quantities:
`‖v‖ < r ↔ 0 < r ∧ ‖v‖² < r²` (exact equivalence, since `‖v‖ ≥ 0`). -/
def within_radius (origin coords : Vec2) (radius : ℚ) : Bool :=
  decide (0 < radius ∧ normSq (sub coords origin) < radius ^ 2)

/-- First `while` loop of `helpers.grid_sweep_coords` (snake up through y),
fuel-indexed.  State: current `(x, y)`, row index `idx`, accumulated
coordinates.  Returns the accumulated list, the exit state, and whether the
loop exited through its condition (`true`) or ran out of fuel (`false`).
`c`/`s` stand for `np.cos(rotation)`/`np.sin(rotation)`. -/
def grid_loop1 (sep xI yI w h c s eps : ℚ) :
    ℕ → ℚ → ℚ → ℕ → List (ℚ × ℚ) → List (ℚ × ℚ) × ℚ × ℚ × ℕ × Bool
  | 0, x, y, idx, acc => (acc, x, y, idx, false)
  | fuel + 1, x, y, idx, acc =>
    if y - (yI + h * c) < eps then
      if idx % 2 = 0 then
        -- move left -> right, then up to the next row
        grid_loop1 sep xI yI w h c s eps fuel (x + w * c + sep * s) (y + w * s + sep * c)
          (idx + 1) (acc ++ [(x, y), (x + w * c, y + w * s)])
      else
        -- move right -> left, then up to the next row
        grid_loop1 sep xI yI w h c s eps fuel (x - w * c + sep * s) (y - w * s + sep * c)
          (idx + 1) (acc ++ [(x, y), (x - w * c, y - w * s)])
    else (acc, x, y, idx, true)

/-- The single coordinate appended by the "final row at the limit" block of
`helpers.grid_sweep_coords` (top-left corner if the y-snake ended after an
even number of rows, top-right corner otherwise). -/
def grid_mid_point (xI yI w h c s : ℚ) (idx1 : ℕ) : ℚ × ℚ :=
  if idx1 % 2 = 0 then (xI + h * s, yI + h * c)
  else (xI + w * c + h * s, yI + w * s + h * c)

/-- The `(x, y)` state after the "final row at the limit" block (the appended
corner moved across the final row, not itself appended). -/
def grid_mid_next (xI yI w h c s : ℚ) (idx1 : ℕ) : ℚ × ℚ :=
  if idx1 % 2 = 0 then (xI + h * s + w * c, yI + h * c + w * s)
  else (xI + w * c + h * s - w * c, yI + w * s + h * c - w * s)

/-- The `coeff` set by the "final row at the limit" block: `+1` if the
y-snake ended after an even number of rows, `-1` otherwise. -/
def grid_coeff (idx1 : ℕ) : ℚ := if idx1 % 2 = 0 then 1 else -1

/-- Second `while` loop of `helpers.grid_sweep_coords` (snake back through x),
fuel-indexed, same conventions as `grid_loop1`. -/
def grid_loop2 (sep xI yI w h c s eps coeff : ℚ) :
    ℕ → ℚ → ℚ → ℕ → List (ℚ × ℚ) → List (ℚ × ℚ) × ℚ × ℚ × ℕ × Bool
  | 0, x, y, idx, acc => (acc, x, y, idx, false)
  | fuel + 1, x, y, idx, acc =>
    if eps ≤ x - (xI - h * s) ∧ x - (xI + h * s + w * c) ≤ eps then
      if idx % 2 = 0 then
        -- move top -> bottom, then along to the next column
        grid_loop2 sep xI yI w h c s eps coeff fuel (x - h * s - coeff * sep * c)
          (y - h * c - coeff * sep * s) (idx + 1) (acc ++ [(x, y), (x - h * s, y - h * c)])
      else
        -- move bottom -> top, then along to the next column
        grid_loop2 sep xI yI w h c s eps coeff fuel (x + h * s - coeff * sep * c)
          (y + h * c - coeff * sep * s) (idx + 1) (acc ++ [(x, y), (x + h * s, y + h * c)])
    else (acc, x, y, idx, true)

/-- The "final column at the limit" block of `helpers.grid_sweep_coords`:
two coordinates chosen among four geometries by `coeff` and the parity of the
x-snake's exit index. -/
def grid_final_col (xI yI w h c s coeff : ℚ) (idx2 : ℕ) : List (ℚ × ℚ) :=
  if coeff = -1 then
    if idx2 % 2 = 0 then
      [(xI + w * c + h * s, yI + w * s + h * c),
       (xI + w * c + h * s - h * s, yI + w * s + h * c - h * c)]
    else
      [(xI + w * c, yI + w * s), (xI + w * c + h * s, yI + w * s + h * c)]
  else
    if idx2 % 2 = 0 then
      [(xI + h * s, yI + h * c), (xI + h * s - h * s, yI + h * c - h * c)]
    else
      [(xI, yI), (xI + h * s, yI + h * c)]

/-- Embedding of `helpers.grid_sweep_coords`: y-snake from `(xI, yI)`, final
row flush with the far edge, x-snake, final column flush with the limit.
Returns the coordinate list and whether both loops exited through their own
conditions (fuel-indexed loops). -/
def grid_sweep_coords (sep xI yI w h c s eps : ℚ) (fuel1 fuel2 : ℕ) :
    List (ℚ × ℚ) × Bool :=
  match grid_loop1 sep xI yI w h c s eps fuel1 xI yI 0 [] with
  | (acc1, _, _, idx1, ok1) =>
    match grid_loop2 sep xI yI w h c s eps (grid_coeff idx1) fuel2
        (grid_mid_next xI yI w h c s idx1).1 (grid_mid_next xI yI w h c s idx1).2 0
        (acc1 ++ [grid_mid_point xI yI w h c s idx1]) with
    | (acc2, _, _, idx2, ok2) =>
      (acc2 ++ grid_final_col xI yI w h c s (grid_coeff idx1) idx2, ok1 && ok2)

/-- The bound the spec claims for `grid_sweep_coords` waypoints at
rotation 0: inside `[x_init, x_init + width] × [y_init, y_init + height]`,
each bound relaxed by the tolerance `eps`. -/
def in_rect_eps (xI yI w h eps : ℚ) (p : ℚ × ℚ) : Prop :=
  xI - eps ≤ p.1 ∧ p.1 ≤ xI + w + eps ∧ yI - eps ≤ p.2 ∧ p.2 ≤ yI + h + eps

/-- Application of the `cwise` matrix of `scan.trace_line` /
`scan.trace_perimeter` (`cwise[:2, :2] = [[0, -1], [1, 0]]`) to a 2-D
vector. -/
def cwise_apply (v : Vec2) : Vec2 := (0 * v.1 + (-1) * v.2, 1 * v.1 + 0 * v.2)

/-- Application of the `ccwise` matrix of `scan.trace_line` /
`scan.trace_perimeter` (`ccwise[:2, :2] = [[0, 1], [-1, 0]]`) to a 2-D
vector. -/
def ccwise_apply (v : Vec2) : Vec2 := (0 * v.1 + 1 * v.2, (-1) * v.1 + 0 * v.2)

/-- `init_direction /= np.linalg.norm(init_direction)`: `n` stands for the
Euclidean norm of `d`. -/
def unit_dir (d : Vec2) (n : ℚ) : Vec2 := (d.1 / n, d.2 / n)

/-- Rotation of a column vector by an angle with cosine `c` and sine `s`, in
the repository's own convention (positive = anti-clockwise, as documented in
`analysis.lst_dist_from_rect` and used by `helpers.grid_sweep_coords`):
`[[c, -s], [s, c]]`.  A 90° clockwise rotation is `rot_apply 0 (-1)`; a 90°
anti-clockwise rotation is `rot_apply 0 1`. -/
def rot_apply (c s : ℚ) (v : Vec2) : Vec2 := (c * v.1 - s * v.2, s * v.1 + c * v.2)

/-- The initial cardinal direction computed by `scan.trace_line`
(`cardinal = np.dot(cwise, init_direction)` after normalisation). -/
def trace_line_init_cardinal (d : Vec2) (n : ℚ) : Vec2 := cwise_apply (unit_dir d n)

/-- The initial cardinal direction computed by `scan.trace_perimeter`
(same code as `scan.trace_line`). -/
def trace_perimeter_init_cardinal (d : Vec2) (n : ℚ) : Vec2 := cwise_apply (unit_dir d n)

/-- One iteration of the body of either direction-tracing `while` loop of
`scan.trace_line`, acting on the state `(turns_since_last_seen, cardinal)`.
`break_state` is the result of the iteration's linear scan across the crack.
When the scan does not break, the source rotates `cardinal` and evaluates the
bare expression `turns_since_last_seen + 1` without assigning it, so the
counter component is left unchanged; when it breaks, the counter is reset
to 0. -/
def trace_line_iter (st : ℕ × Vec2) (break_state : Bool) : ℕ × Vec2 :=
  if break_state = false then (st.1, cwise_apply st.2)
  else (0, st.2)

/-- One iteration of the main `while` loop of `scan.trace_perimeter`, as
observed at the loop-condition check.  `corner p`: the off-geometry scan
failed to break (`continue` path; the flag update is skipped), with
`current_pos = p` at the check.  `full p`: the off-geometry scan broke and
the inner on-geometry loop completed, with `current_pos = p` at the end of
the body. -/
inductive PerimEvent where
  | corner (pos : Vec2)
  | full (pos : Vec2)

/-- State update of `scan.trace_perimeter`'s main loop per iteration:
state is `(first, current_pos)`.  Only a `full` iteration executes
`if first and not within_radius(origin, current_pos, separation): first = False`. -/
def perim_iter (origin : Vec2) (separation : ℚ) (st : Bool × Vec2) (e : PerimEvent) :
    Bool × Vec2 :=
  match e with
  | .corner p => (st.1, p)
  | .full p => (st.1 && within_radius origin p separation, p)

/-- The state of `scan.trace_perimeter`'s main loop at the loop-condition
check after the given iterations have executed. -/
def perim_run (origin : Vec2) (separation : ℚ) (st : Bool × Vec2)
    (evs : List PerimEvent) : Bool × Vec2 :=
  evs.foldl (perim_iter origin separation) st

/-- The negation of `scan.trace_perimeter`'s loop condition
`first or not within_radius(origin, current_pos, 1.5*separation)`: the loop
terminates at a check exactly when this is `true`. -/
def perim_loop_exits (origin : Vec2) (separation : ℚ) (st : Bool × Vec2) : Bool :=
  !st.1 && within_radius origin st.2 (1.5 * separation)

/-- Whether an iteration was a `full` one whose end position had left the
`separation`-radius neighbourhood of the start (the only kind of iteration
that can clear the `first` flag). -/
def departed_full (origin : Vec2) (separation : ℚ) (e : PerimEvent) : Bool :=
  match e with
  | .full p => !within_radius origin p separation
  | .corner _ => false

/-- Commands issued to the stage by `scan.linear_scan`. -/
inductive StageCmd where
  | move (target : List ℚ) (mode : String)
  | stop

/-- The hardware collaborators polled by `scan.linear_scan`, indexed by poll
number: the stage's aggregate busy state (`any(axis.is_busy())`), its
position, and the handyscope record (`ρ`) returned by `get_record()`. -/
structure ScanEnv (ρ : Type) where
  busy : ℕ → Bool
  position : ℕ → List ℚ
  record : ℕ → ρ

/-- Output of the polling loop of `scan.linear_scan`: accumulated
coordinates, RMS-mode scan data, spec-mode scan data (the source keeps one
`scan_data` array whose element type depends on `scan_mode`), the break
state, the stage commands issued, and whether fuel ran out while the stage
was still busy. -/
structure LoopOut (δ : Type) where
  coordinates : List (List ℚ)
  rms_data : List ℚ
  spec_data : List δ
  break_state : Bool
  stage_cmds : List StageCmd
  fuel_ran_out : Bool

/-- The polling `while` loop of `scan.linear_scan`, fuel-indexed.  `rmsF` is
the pure helper `rms` applied to a record; `rfftF` is `np.fft.rfft` applied
to a record's first channel (carried opaquely).  Each iteration reads the
position, acquires one record, appends to the trace, and then — when a break
function is supplied and fires on the record's RMS — stops the stage and
exits with `break_state = true`. -/
def linear_scan_loop {ρ δ : Type} (env : ScanEnv ρ) (rmsF : ρ → ℚ) (rfftF : ρ → δ)
    (is_rms : Bool) (break_fn : Option (ℚ → Bool)) :
    ℕ → ℕ → List (List ℚ) → List ℚ → List δ → List StageCmd → LoopOut δ
  | 0, _, cs, rd, sd, cmds => ⟨cs, rd, sd, false, cmds, true⟩
  | fuel + 1, i, cs, rd, sd, cmds =>
    if env.busy i then
      match break_fn with
      | some f =>
        if f (rmsF (env.record i)) then
          ⟨cs ++ [env.position i],
           (if is_rms then rd ++ [rmsF (env.record i)] else rd),
           (if is_rms then sd else sd ++ [rfftF (env.record i)]),
           true, cmds ++ [StageCmd.stop], false⟩
        else
          linear_scan_loop env rmsF rfftF is_rms break_fn fuel (i + 1)
            (cs ++ [env.position i])
            (if is_rms then rd ++ [rmsF (env.record i)] else rd)
            (if is_rms then sd else sd ++ [rfftF (env.record i)]) cmds
      | none =>
        linear_scan_loop env rmsF rfftF is_rms break_fn fuel (i + 1)
          (cs ++ [env.position i])
          (if is_rms then rd ++ [rmsF (env.record i)] else rd)
          (if is_rms then sd else sd ++ [rfftF (env.record i)]) cmds
    else ⟨cs, rd, sd, false, cmds, false⟩

/-- Python's `str.lower()` (as applied to `scan_mode`), implemented
characterwise.  (Lean's own `String.toLower` is the identical map but its
byte-position loop does not reduce during type checking.) -/
def str_lower (s : String) : String := String.mk (s.data.map Char.toLower)

/-- Observable outcome of a `scan.linear_scan` call: stage commands issued,
number of sensor records acquired, and either the returned
`(coordinates, rms data, spec data, break_state)` or the `ValueError`
message raised by input checking. -/
structure ScanOutcome (δ : Type) where
  stage_cmds : List StageCmd
  samples_acquired : ℕ
  result : Except String (List (List ℚ) × List ℚ × List δ × Bool)
  fuel_ran_out : Bool

/-- Embedding of `scan.linear_scan`: input checking (target dimensionality,
then `scan_mode.lower()` against `("rms", "spec")`), then the non-blocking
move command, then the polling loop.  The target is carried post-`squeeze`
as a 1-D coordinate list.  One record is acquired per loop iteration, so
`samples_acquired` equals the number of recorded coordinates. -/
def linear_scan {ρ δ : Type} (env : ScanEnv ρ) (rmsF : ρ → ℚ) (rfftF : ρ → δ)
    (num_axes : ℕ) (target : List ℚ) (move_mode scan_mode : String)
    (break_fn : Option (ℚ → Bool)) (fuel : ℕ) : ScanOutcome δ :=
  if target.length > num_axes then
    ⟨[], 0, Except.error
      "scan.linear_scan: target must be array-like coordinates of length <= number of axes in stage.",
      false⟩
  else if ¬ (str_lower scan_mode = "rms" ∨ str_lower scan_mode = "spec") then
    ⟨[], 0, Except.error "scan.linear_scan: scan mode must be one of (rms, spec)", false⟩
  else
    match linear_scan_loop env rmsF rfftF (str_lower scan_mode = "rms") break_fn fuel 0
        [] [] [] [StageCmd.move target move_mode] with
    | out =>
      ⟨out.stage_cmds, out.coordinates.length,
       Except.ok (out.coordinates, out.rms_data, out.spec_data, out.break_state),
       out.fuel_ran_out⟩

/-- Whether an `Except` result is an error (a raised `ValueError` in the
source). -/
def is_error {α : Type} (e : Except String α) : Bool :=
  match e with
  | .error _ => true
  | .ok _ => false

/-- The return post-processing of `scan.domain_search`:
`if len(geoms) == 1: geoms = geoms[0]` — a bare single record when exactly
one feature was found, the list of records otherwise. -/
def finalize_geoms {G : Type} (geoms : List G) : G ⊕ List G :=
  if h : geoms.length = 1 then Sum.inl (geoms.get ⟨0, by omega⟩) else Sum.inr geoms

/-- Input checking and setup prologue of `scan.domain_search`: the axis-count
check, then the origin-dimensionality check (the origin is carried
post-`squeeze` as a 1-D coordinate list), and only then waypoint generation
and the initial move command.  On success it returns the generated waypoints
and the stage commands issued so far; the error branches return before
either happens. -/
def domain_search_prologue (num_axes : ℕ) (origin : List ℚ)
    (snake_separation w h c s eps : ℚ) (fuel1 fuel2 : ℕ) :
    Except String (List (ℚ × ℚ) × List StageCmd) :=
  if num_axes < 2 then
    Except.error "scan.geometry_search: not enough axes to perform 2D sweep search for geometry."
  else if origin.length > num_axes then
    Except.error "scan.geometry_search: origin must be array-like coordinates of length <= axes in stage."
  else
    match grid_sweep_coords snake_separation (origin.getD 0 0) (origin.getD 1 0)
        w h c s eps fuel1 fuel2 with
    | (coords, _) =>
      Except.ok (coords,
        [StageCmd.move ((coords.getD 0 (0, 0)).1 :: [(coords.getD 0 (0, 0)).2]) "abs"])

lemma normSq_nonneg (v : Vec2) : 0 ≤ normSq v := by
  unfold normSq dot
  nlinarith [mul_self_nonneg v.1, mul_self_nonneg v.2]

lemma dist_from_line_sq_nonneg (pt a b : Vec2) : 0 ≤ dist_from_line_sq pt a b := by
  unfold dist_from_line_sq
  exact normSq_nonneg _

/-- A point placed exactly at the start of the segment is at (squared)
distance zero from it. -/
lemma dist_from_line_sq_self_start (a b : Vec2) : dist_from_line_sq a a b = 0 := by
  simp [dist_from_line_sq, sub, dot, smul, normSq, clamp01]
  norm_num

lemma min4_zero (d1 d2 d3 d4 : ℚ) (h1 : 0 ≤ d1) (h2 : 0 ≤ d2) (h3 : 0 ≤ d3) (h4 : 0 ≤ d4)
    (hz : d1 = 0 ∨ d2 = 0 ∨ d3 = 0 ∨ d4 = 0) :
    min (min d1 d2) (min d3 d4) = 0 := by
  have l1 : min (min d1 d2) (min d3 d4) ≤ d1 := le_trans (min_le_left _ _) (min_le_left _ _)
  have l2 : min (min d1 d2) (min d3 d4) ≤ d2 := le_trans (min_le_left _ _) (min_le_right _ _)
  have l3 : min (min d1 d2) (min d3 d4) ≤ d3 := le_trans (min_le_right _ _) (min_le_left _ _)
  have l4 : min (min d1 d2) (min d3 d4) ≤ d4 := le_trans (min_le_right _ _) (min_le_right _ _)
  have lb : 0 ≤ min (min d1 d2) (min d3 d4) := le_min (le_min h1 h2) (le_min h3 h4)
  rcases hz with h | h | h | h <;> linarith

/-- C7: For every rectangle (origin_x, origin_y, width > 0, height > 0,
rotation), evaluating `lst_dist_from_rect` at each of the rectangle's four
corner points returns 0.  The rotation is carried as a cos/sin pair `(c, s)`
with `c² + s² = 1`; distances are carried squared, and a squared distance is
zero exactly when the distance is. -/
theorem lst_dist_from_rect_corners (ox oy w h c s : ℚ)
    (hw : 0 < w) (hh : 0 < h) (hcs : c ^ 2 + s ^ 2 = 1) :
    lst_dist_from_rect_sq (ox, oy) ox oy w h c s = 0 ∧
    lst_dist_from_rect_sq (ox + w * c, oy + w * s) ox oy w h c s = 0 ∧
    lst_dist_from_rect_sq (ox + w * c - h * s, oy + w * s + h * c) ox oy w h c s = 0 ∧
    lst_dist_from_rect_sq (ox - h * s, oy + h * c) ox oy w h c s = 0 := by
  refine ⟨?_, ?_, ?_, ?_⟩ <;>
    · unfold lst_dist_from_rect_sq
      apply min4_zero _ _ _ _ (dist_from_line_sq_nonneg _ _ _) (dist_from_line_sq_nonneg _ _ _)
        (dist_from_line_sq_nonneg _ _ _) (dist_from_line_sq_nonneg _ _ _)
      first
        | exact Or.inl (dist_from_line_sq_self_start _ _)
        | exact Or.inr (Or.inl (dist_from_line_sq_self_start _ _))
        | exact Or.inr (Or.inr (Or.inl (dist_from_line_sq_self_start _ _)))
        | exact Or.inr (Or.inr (Or.inr (dist_from_line_sq_self_start _ _)))

/-- Witness for C7 at the concrete rectangle origin (1, -2), width 3,
height 2, rotation with cos = 3/5, sin = 4/5. -/
theorem lst_dist_from_rect_corners_witness :
    lst_dist_from_rect_sq ((1 : ℚ), (-2 : ℚ)) 1 (-2) 3 2 (3/5) (4/5) = 0 ∧
    lst_dist_from_rect_sq ((1 : ℚ) + 3 * (3/5), (-2 : ℚ) + 3 * (4/5)) 1 (-2) 3 2 (3/5) (4/5) = 0 ∧
    lst_dist_from_rect_sq ((1 : ℚ) + 3 * (3/5) - 2 * (4/5), (-2 : ℚ) + 3 * (4/5) + 2 * (3/5)) 1 (-2) 3 2 (3/5) (4/5) = 0 ∧
    lst_dist_from_rect_sq ((1 : ℚ) - 2 * (4/5), (-2 : ℚ) + 2 * (3/5)) 1 (-2) 3 2 (3/5) (4/5) = 0 :=
  lst_dist_from_rect_corners 1 (-2) 3 2 (3/5) (4/5) (by norm_num) (by norm_num) (by norm_num)

lemma normSq_eq_zero_iff (v : Vec2) : normSq v = 0 ↔ v = ((0 : ℚ), (0 : ℚ)) := by
  unfold normSq dot
  constructor
  · intro h
    have h1 : v.1 = 0 := by nlinarith [mul_self_nonneg v.1, mul_self_nonneg v.2]
    have h2 : v.2 = 0 := by nlinarith [mul_self_nonneg v.1, mul_self_nonneg v.2]
    exact Prod.ext h1 h2
  · intro h
    rw [h]
    norm_num

lemma clamp01_one_sub (t : ℚ) : clamp01 (1 - t) = 1 - clamp01 t := by
  unfold clamp01
  split_ifs <;> linarith

/-- C8: For every set of points and every segment with distinct endpoints,
swapping the roles of segStart and segEnd in `dist_from_line` leaves every
returned distance unchanged.  Stated per point (the source maps the same
computation over its m points) and on squared distances (squaring is
injective on nonnegative distances). -/
theorem dist_from_line_sq_swap (pt a b : Vec2) (hab : a ≠ b) :
    dist_from_line_sq pt a b = dist_from_line_sq pt b a := by
  have hn : normSq (sub b a) ≠ 0 := by
    intro h0
    apply hab
    have hz := (normSq_eq_zero_iff (sub b a)).mp h0
    unfold sub at hz
    have h1 : b.1 - a.1 = 0 := congrArg Prod.fst hz
    have h2 : b.2 - a.2 = 0 := congrArg Prod.snd hz
    exact Prod.ext (by linarith) (by linarith)
  -- normSq is symmetric in the two orientations of the segment
  have hsymm : normSq (sub a b) = normSq (sub b a) := by
    unfold normSq dot sub
    ring
  -- the projection parameter of the swapped segment is 1 minus the original
  have hperc : dot (sub a b) (sub pt b) / normSq (sub a b) =
      1 - dot (sub b a) (sub pt a) / normSq (sub b a) := by
    rw [hsymm]
    field_simp
    unfold normSq dot sub
    ring
  unfold dist_from_line_sq
  rw [hperc, clamp01_one_sub]
  generalize clamp01 (dot (sub b a) (sub pt a) / normSq (sub b a)) = t
  unfold normSq dot sub smul
  ring

/-- Witness for C8 at the concrete point (2, 3) and segment (0, 0)–(1, 1). -/
theorem dist_from_line_sq_swap_witness :
    dist_from_line_sq ((2 : ℚ), (3 : ℚ)) (0, 0) (1, 1) =
      dist_from_line_sq ((2 : ℚ), (3 : ℚ)) (1, 1) (0, 0) :=
  dist_from_line_sq_swap (2, 3) (0, 0) (1, 1) (by decide)

lemma in_rect_eps_mk (xI yI w h eps px py : ℚ) (h1 : xI - eps ≤ px)
    (h2 : px ≤ xI + w + eps) (h3 : yI - eps ≤ py) (h4 : py ≤ yI + h + eps) :
    in_rect_eps xI yI w h eps (px, py) :=
  ⟨h1, h2, h3, h4⟩

/-- Invariant of the y-snake at rotation 0 (`c = 1`, `s = 0`): every appended
coordinate stays inside the eps-relaxed rectangle.  The state invariant ties
the x coordinate to the row parity and keeps y above `yI`. -/
lemma grid_loop1_mem (sep xI yI w h eps : ℚ) (hsep : 0 < sep) (hw : 0 < w)
    (he : 0 < eps) :
    ∀ (fuel : ℕ) (x y : ℚ) (idx : ℕ) (acc : List (ℚ × ℚ)),
      (∀ p ∈ acc, in_rect_eps xI yI w h eps p) →
      (x = if idx % 2 = 0 then xI else xI + w) →
      yI ≤ y →
      ∀ p ∈ (grid_loop1 sep xI yI w h 1 0 eps fuel x y idx acc).1,
        in_rect_eps xI yI w h eps p := by
  intro fuel
  induction fuel with
  | zero => intro x y idx acc hacc hx hy p hp; exact hacc p hp
  | succ n ih =>
    intro x y idx acc hacc hx hy p hp
    simp only [grid_loop1] at hp
    by_cases hc : y - (yI + h * 1) < eps
    · rw [if_pos hc] at hp
      by_cases hidx : idx % 2 = 0
      · rw [if_pos hidx] at hp
        have hxv : x = xI := by rw [hx, if_pos hidx]
        refine ih (x + w * 1 + sep * 0) (y + w * 0 + sep * 1) (idx + 1) _ ?_ ?_ ?_ p hp
        · intro q hq
          rcases List.mem_append.mp hq with hq | hq
          · exact hacc q hq
          · simp only [List.mem_cons, List.not_mem_nil, or_false] at hq
            rcases hq with rfl | rfl <;>
              exact in_rect_eps_mk _ _ _ _ _ _ _ (by linarith) (by linarith)
                (by linarith) (by linarith)
        · rw [if_neg (by omega : ¬ (idx + 1) % 2 = 0)]
          linarith
        · linarith
      · rw [if_neg hidx] at hp
        have hxv : x = xI + w := by rw [hx, if_neg hidx]
        refine ih (x - w * 1 + sep * 0) (y - w * 0 + sep * 1) (idx + 1) _ ?_ ?_ ?_ p hp
        · intro q hq
          rcases List.mem_append.mp hq with hq | hq
          · exact hacc q hq
          · simp only [List.mem_cons, List.not_mem_nil, or_false] at hq
            rcases hq with rfl | rfl <;>
              exact in_rect_eps_mk _ _ _ _ _ _ _ (by linarith) (by linarith)
                (by linarith) (by linarith)
        · rw [if_pos (by omega : (idx + 1) % 2 = 0)]
          linarith
        · linarith
    · rw [if_neg hc] at hp
      exact hacc p hp

/-- Invariant of the x-snake at rotation 0: every appended coordinate stays
inside the eps-relaxed rectangle.  The loop condition pins x to
`[xI + eps, xI + w + eps]`, and the state invariant ties y to the column
parity. -/
lemma grid_loop2_mem (sep xI yI w h eps coeff : ℚ) (hh : 0 < h) (he : 0 < eps) :
    ∀ (fuel : ℕ) (x y : ℚ) (idx : ℕ) (acc : List (ℚ × ℚ)),
      (∀ p ∈ acc, in_rect_eps xI yI w h eps p) →
      (y = if idx % 2 = 0 then yI + h else yI) →
      ∀ p ∈ (grid_loop2 sep xI yI w h 1 0 eps coeff fuel x y idx acc).1,
        in_rect_eps xI yI w h eps p := by
  intro fuel
  induction fuel with
  | zero => intro x y idx acc hacc hy p hp; exact hacc p hp
  | succ n ih =>
    intro x y idx acc hacc hy p hp
    simp only [grid_loop2] at hp
    by_cases hc : eps ≤ x - (xI - h * 0) ∧ x - (xI + h * 0 + w * 1) ≤ eps
    · rw [if_pos hc] at hp
      obtain ⟨hc1, hc2⟩ := hc
      by_cases hidx : idx % 2 = 0
      · rw [if_pos hidx] at hp
        have hyv : y = yI + h := by rw [hy, if_pos hidx]
        refine ih (x - h * 0 - coeff * sep * 1) (y - h * 1 - coeff * sep * 0) (idx + 1) _ ?_ ?_ p hp
        · intro q hq
          rcases List.mem_append.mp hq with hq | hq
          · exact hacc q hq
          · simp only [List.mem_cons, List.not_mem_nil, or_false] at hq
            rcases hq with rfl | rfl <;>
              exact in_rect_eps_mk _ _ _ _ _ _ _ (by linarith) (by linarith)
                (by linarith) (by linarith)
        · rw [if_neg (by omega : ¬ (idx + 1) % 2 = 0)]
          linarith
      · rw [if_neg hidx] at hp
        have hyv : y = yI := by rw [hy, if_neg hidx]
        refine ih (x + h * 0 - coeff * sep * 1) (y + h * 1 - coeff * sep * 0) (idx + 1) _ ?_ ?_ p hp
        · intro q hq
          rcases List.mem_append.mp hq with hq | hq
          · exact hacc q hq
          · simp only [List.mem_cons, List.not_mem_nil, or_false] at hq
            rcases hq with rfl | rfl <;>
              exact in_rect_eps_mk _ _ _ _ _ _ _ (by linarith) (by linarith)
                (by linarith) (by linarith)
        · rw [if_pos (by omega : (idx + 1) % 2 = 0)]
          linarith
    · rw [if_neg hc] at hp
      exact hacc p hp

lemma grid_mid_point_mem (xI yI w h eps : ℚ) (hw : 0 < w) (hh : 0 < h) (he : 0 < eps)
    (idx1 : ℕ) : in_rect_eps xI yI w h eps (grid_mid_point xI yI w h 1 0 idx1) := by
  unfold grid_mid_point
  split_ifs <;>
    exact in_rect_eps_mk _ _ _ _ _ _ _ (by linarith) (by linarith) (by linarith) (by linarith)

lemma grid_final_col_mem (xI yI w h eps coeff : ℚ) (hw : 0 < w) (hh : 0 < h)
    (he : 0 < eps) (idx2 : ℕ) :
    ∀ p ∈ grid_final_col xI yI w h 1 0 coeff idx2, in_rect_eps xI yI w h eps p := by
  intro p hp
  unfold grid_final_col at hp
  split_ifs at hp <;>
    simp only [List.mem_cons, List.not_mem_nil, or_false] at hp <;>
    rcases hp with rfl | rfl <;>
      exact in_rect_eps_mk _ _ _ _ _ _ _ (by linarith) (by linarith) (by linarith) (by linarith)

/-- C3: For all valid inputs with separation > 0, width > 0, height > 0 and
rotation = 0 (cos = 1, sin = 0), every coordinate returned by
`grid_sweep_coords` has its x-component within `[x_init, x_init + width]`
and its y-component within `[y_init, y_init + height]`, each bound relaxed
by the tolerance `eps`.  Proved for every fuel value, hence in particular
for every completed run. -/
theorem grid_sweep_coords_within_rect (sep xI yI w h eps : ℚ)
    (hsep : 0 < sep) (hw : 0 < w) (hh : 0 < h) (he : 0 < eps)
    (fuel1 fuel2 : ℕ) (p : ℚ × ℚ)
    (hp : p ∈ (grid_sweep_coords sep xI yI w h 1 0 eps fuel1 fuel2).1) :
    in_rect_eps xI yI w h eps p := by
  simp only [grid_sweep_coords] at hp
  rcases List.mem_append.mp hp with hp | hp
  · refine grid_loop2_mem sep xI yI w h eps _ hh he fuel2 _ _ 0 _ ?_ ?_ p hp
    · intro q hq
      rcases List.mem_append.mp hq with hq | hq
      · refine grid_loop1_mem sep xI yI w h eps hsep hw he fuel1 xI yI 0 [] ?_ ?_ ?_ q hq
        · intro r hr
          exact absurd hr (List.not_mem_nil r)
        · norm_num
        · exact le_refl yI
      · simp only [List.mem_cons, List.not_mem_nil, or_false] at hq
        subst hq
        exact grid_mid_point_mem xI yI w h eps hw hh he _
    · unfold grid_mid_next
      split_ifs <;> first | (exfalso; omega) | norm_num
  · exact grid_final_col_mem xI yI w h eps _ hw hh he _ p hp

set_option maxHeartbeats 2000000 in
/-- Witness for C3 at separation 2, origin (0, 0), width 3, height 3,
eps = 1, rotation 0: the origin is among the returned waypoints and lies in
the relaxed rectangle. -/
theorem grid_sweep_coords_within_rect_witness :
    in_rect_eps 0 0 3 3 1 ((0 : ℚ), (0 : ℚ)) :=
  grid_sweep_coords_within_rect 2 0 0 3 3 1 (by norm_num) (by norm_num) (by norm_num)
    (by norm_num) 4 3 (0, 0)
    (by norm_num [grid_sweep_coords, grid_loop1, grid_loop2, grid_mid_point, grid_mid_next,
      grid_coeff, grid_final_col, List.mem_append, List.mem_cons])

/-- C4 (counterexample): with the stage travelling along +x, `trace_line`
initialises the cardinal direction to `(0, 1)`, which is NOT the initial
direction rotated 90° clockwise (that would be `(0, -1)` in the
repository's own documented convention, where positive rotation is
anti-clockwise).  `trace_perimeter` computes the identical expression. -/
theorem trace_init_cardinal_not_clockwise :
    trace_line_init_cardinal (1, 0) 1 ≠ rot_apply 0 (-1) (unit_dir (1, 0) 1) := by
  norm_num [trace_line_init_cardinal, cwise_apply, unit_dir, rot_apply, Prod.mk.injEq]

/-- C4 (amended): for every initial direction of travel, both boundary
tracers initialise the cardinal direction to the unit initial-direction
vector rotated 90° anti-clockwise (the matrix the source names `cwise`,
`[[0, -1], [1, 0]]`, is the +90° rotation in the repository's
positive-is-anti-clockwise convention). -/
theorem trace_init_cardinal_ccw (d : Vec2) (n : ℚ) :
    trace_line_init_cardinal d n = rot_apply 0 1 (unit_dir d n) ∧
    trace_perimeter_init_cardinal d n = rot_apply 0 1 (unit_dir d n) := by
  constructor <;>
    · simp only [trace_line_init_cardinal, trace_perimeter_init_cardinal, cwise_apply,
        rot_apply, unit_dir, Prod.mk.injEq]
      constructor <;> ring

lemma trace_line_iter_fst_eq_zero (evs : List Bool) :
    ∀ st : ℕ × Vec2, st.1 = 0 → (evs.foldl trace_line_iter st).1 = 0 := by
  induction evs with
  | nil => intro st h; simpa using h
  | cons e es ih =>
    intro st h
    rw [List.foldl_cons]
    apply ih
    cases e <;> simp [trace_line_iter, h]

/-- C1 (refuting theorem, code bug): the statement
`turns_since_last_seen + 1` in `trace_line` is a bare expression, never
assigned, so after any sequence of loop iterations — in particular after
four consecutive iterations whose linear scan fails to redetect the crack —
the counter is still 0 and the loop condition `turns_since_last_seen < 4`
still holds: the first-direction tracing loop never terminates and the
reversal to the opposite cardinal direction is never reached. -/
theorem trace_line_loop_never_terminates (card : Vec2) (evs : List Bool) :
    (evs.foldl trace_line_iter (0, card)).1 < 4 := by
  have h := trace_line_iter_fst_eq_zero evs (0, card) rfl
  omega

lemma perim_run_first_false (origin : Vec2) (separation : ℚ) (evs : List PerimEvent) :
    ∀ st : Bool × Vec2, (perim_run origin separation st evs).1 = false →
      st.1 = false ∨ evs.any (departed_full origin separation) = true := by
  induction evs with
  | nil => intro st h; exact Or.inl h
  | cons e es ih =>
    intro st h
    rw [perim_run, List.foldl_cons] at h
    rcases ih (perim_iter origin separation st e) h with h' | h'
    · cases e with
      | corner p => exact Or.inl h'
      | full p =>
        by_cases hw : within_radius origin p separation = true
        · left
          simpa [perim_iter, hw] using h'
        · right
          simp only [List.any_cons, departed_full, Bool.or_eq_true, Bool.not_eq_true']
          exact Or.inl (by simpa using hw)
    · right
      simp [List.any_cons, h']

/-- C5 (amended): whenever `trace_perimeter`'s main loop terminates at a
loop-condition check (after the iterations `evs`), some completed
(non-corner) iteration's end position had left the separation-radius
neighbourhood of the recorded start position, and the position at the
terminating check is within 1.5×separation of it.  (The converse of the
original claim fails: a departure observed only at a corner-turn check never
clears the `first` flag — see the counterexample.) -/
theorem trace_perimeter_departed_then_returned (origin p0 : Vec2) (separation : ℚ)
    (evs : List PerimEvent)
    (hexit : perim_loop_exits origin separation
      (perim_run origin separation (true, p0) evs) = true) :
    evs.any (departed_full origin separation) = true ∧
    within_radius origin (perim_run origin separation (true, p0) evs).2
      (1.5 * separation) = true := by
  unfold perim_loop_exits at hexit
  rw [Bool.and_eq_true] at hexit
  obtain ⟨h1, h2⟩ := hexit
  have hfalse : (perim_run origin separation (true, p0) evs).1 = false := by
    simpa using h1
  rcases perim_run_first_false origin separation evs (true, p0) hfalse with h | h
  · exact absurd h (by simp)
  · exact ⟨h, h2⟩

/-- Witness for C5: two full iterations, the first ending far from the
start, the second back at it — the loop exits and the theorem's conclusion
evaluates as stated. -/
theorem trace_perimeter_departed_then_returned_witness :
    [PerimEvent.full ((10 : ℚ), (10 : ℚ)), PerimEvent.full (0, 0)].any
      (departed_full ((0 : ℚ), (0 : ℚ)) 1) = true ∧
    within_radius ((0 : ℚ), (0 : ℚ))
      (perim_run ((0 : ℚ), (0 : ℚ)) 1 (true, ((0 : ℚ), (0 : ℚ)))
        [PerimEvent.full (10, 10), PerimEvent.full (0, 0)]).2 (1.5 * 1) = true :=
  trace_perimeter_departed_then_returned (0, 0) (0, 0) 1
    [PerimEvent.full (10, 10), PerimEvent.full (0, 0)]
    (by norm_num [perim_loop_exits, perim_run, perim_iter, within_radius, normSq, dot, sub,
      List.foldl_cons, List.foldl_nil, decide_eq_true_eq, decide_eq_false_iff_not])

/-- C5 (counterexample): the probe's position at a loop-condition check
reached after a corner-turn `continue` leaves the separation-radius
neighbourhood (position (10, 10)), and at the next check the position is
back within 1.5×separation (position (0, 0)); both conditions of the claim
have occurred at loop-condition checks, yet neither check terminates the
loop, because the corner-turn path skips the `first`-flag update. -/
theorem trace_perimeter_corner_departure_ignored :
    within_radius ((0 : ℚ), (0 : ℚ)) (10, 10) 1 = false ∧
    within_radius ((0 : ℚ), (0 : ℚ)) (0, 0) (1.5 * 1) = true ∧
    perim_loop_exits ((0 : ℚ), (0 : ℚ)) 1
      (perim_run ((0 : ℚ), (0 : ℚ)) 1 (true, ((0 : ℚ), (0 : ℚ)))
        [PerimEvent.corner (10, 10)]) = false ∧
    perim_loop_exits ((0 : ℚ), (0 : ℚ)) 1
      (perim_run ((0 : ℚ), (0 : ℚ)) 1 (true, ((0 : ℚ), (0 : ℚ)))
        [PerimEvent.corner (10, 10), PerimEvent.full (0, 0)]) = false := by
  norm_num [perim_loop_exits, perim_run, perim_iter, within_radius, normSq, dot, sub,
    List.foldl_cons, List.foldl_nil, decide_eq_true_eq, decide_eq_false_iff_not]

/-- C6: for every stage with fewer than 2 axes, and for every origin whose
(squeezed) dimensionality exceeds the number of stage axes, `domain_search`
raises a `ValueError` in its input-checking prologue: the result is the
error branch, which is produced before waypoint generation and before any
move command is issued. -/
theorem domain_search_precondition_error (num_axes : ℕ) (origin : List ℚ)
    (sep w h c s eps : ℚ) (fuel1 fuel2 : ℕ)
    (hbad : num_axes < 2 ∨ origin.length > num_axes) :
    is_error (domain_search_prologue num_axes origin sep w h c s eps fuel1 fuel2) = true := by
  rcases hbad with hb | hb
  · simp [domain_search_prologue, hb, is_error]
  · by_cases h2 : num_axes < 2
    · simp [domain_search_prologue, h2, is_error]
    · simp [domain_search_prologue, h2, hb, is_error]

/-- Witness for C6: a one-axis stage fails the precondition check. -/
theorem domain_search_precondition_error_witness :
    is_error (domain_search_prologue 1 [0, 0] 50 200 200 1 0 (1/10000) 10 10) = true :=
  domain_search_precondition_error 1 [0, 0] 50 200 200 1 0 (1/10000) 10 10
    (Or.inl (by norm_num))

/-- C9: `domain_search` returns the accumulated feature records as a bare
single record when exactly one feature was found, and as the (possibly
empty) list of records otherwise. -/
theorem domain_search_single_geom_unwrapped (G : Type) (geoms : List G) :
    (∀ g : G, geoms = [g] → finalize_geoms geoms = Sum.inl g) ∧
    (geoms.length ≠ 1 → finalize_geoms geoms = Sum.inr geoms) := by
  constructor
  · intro g hg
    subst hg
    simp [finalize_geoms]
  · intro hne
    simp [finalize_geoms, hne]

/-- Witness for C9: a single record is unwrapped; an empty accumulation is
returned as the empty list. -/
theorem domain_search_single_geom_unwrapped_witness :
    finalize_geoms [(3 : ℚ)] = Sum.inl 3 ∧
    finalize_geoms ([] : List ℚ) = Sum.inr [] :=
  ⟨(domain_search_single_geom_unwrapped ℚ [3]).1 3 rfl,
   (domain_search_single_geom_unwrapped ℚ []).2 (by decide)⟩

/-- C10: for every `scan_mode` whose lowercased value is neither "rms" nor
"spec", `linear_scan` raises a `ValueError` with no stage command issued and
no sensor record acquired, so stage and sensor state are unchanged. -/
theorem linear_scan_invalid_scan_mode (ρ δ : Type) (env : ScanEnv ρ) (rmsF : ρ → ℚ)
    (rfftF : ρ → δ) (num_axes : ℕ) (target : List ℚ) (move_mode scan_mode : String)
    (break_fn : Option (ℚ → Bool)) (fuel : ℕ)
    (h1 : str_lower scan_mode ≠ "rms") (h2 : str_lower scan_mode ≠ "spec") :
    (linear_scan env rmsF rfftF num_axes target move_mode scan_mode break_fn fuel).stage_cmds
        = [] ∧
    (linear_scan env rmsF rfftF num_axes target move_mode scan_mode break_fn fuel).samples_acquired
        = 0 ∧
    is_error (linear_scan env rmsF rfftF num_axes target move_mode scan_mode
        break_fn fuel).result = true := by
  unfold linear_scan
  by_cases ht : target.length > num_axes
  · simp [ht, is_error]
  · simp [ht, h1, h2, is_error]

/-- Witness for C10 at the concrete scan mode "fourier". -/
theorem linear_scan_invalid_scan_mode_witness :
    (linear_scan ⟨fun _ => true, fun _ => [], fun _ => (0 : ℚ)⟩ id (fun r => r) 2 [1, 2]
      "abs" "fourier" none 5).stage_cmds = [] ∧
    (linear_scan ⟨fun _ => true, fun _ => [], fun _ => (0 : ℚ)⟩ id (fun r => r) 2 [1, 2]
      "abs" "fourier" none 5).samples_acquired = 0 ∧
    is_error (linear_scan ⟨fun _ => true, fun _ => [], fun _ => (0 : ℚ)⟩ id (fun r => r) 2
      [1, 2] "abs" "fourier" none 5).result = true :=
  linear_scan_invalid_scan_mode ℚ ℚ _ _ _ _ _ _ _ _ _ (by decide) (by decide)

/-- C2: for every break predicate that returns true on the first sample,
`linear_scan` called while the actuator reports busy at the first poll
returns a trace of length exactly 1 (one recorded coordinate and one RMS
value), returns `break_state = true`, and issues exactly one `stop()` to the
stage (its full command list is the initial move followed by the single
stop). -/
theorem linear_scan_first_sample_break (ρ δ : Type) (env : ScanEnv ρ) (rmsF : ρ → ℚ)
    (rfftF : ρ → δ) (num_axes : ℕ) (target : List ℚ) (move_mode : String) (f : ℚ → Bool)
    (fuel : ℕ) (htar : target.length ≤ num_axes) (hfuel : 1 ≤ fuel)
    (hbusy : env.busy 0 = true) (hbrk : f (rmsF (env.record 0)) = true) :
    linear_scan env rmsF rfftF num_axes target move_mode "RMS" (some f) fuel =
      ⟨[StageCmd.move target move_mode, StageCmd.stop], 1,
       Except.ok ([env.position 0], [rmsF (env.record 0)], [], true), false⟩ := by
  obtain ⟨k, rfl⟩ : ∃ k, fuel = k + 1 := ⟨fuel - 1, by omega⟩
  have ht : ¬ target.length > num_axes := by omega
  have hm : str_lower "RMS" = "rms" := by decide
  unfold linear_scan
  rw [if_neg ht, if_neg (by simp [hm])]
  simp only [linear_scan_loop, hm, hbusy, hbrk, if_true, decide_eq_true_eq]
  simp

/-- Witness for C2 with a constantly-busy stage and an always-true break
predicate. -/
theorem linear_scan_first_sample_break_witness :
    linear_scan ⟨fun _ => true, fun _ => [4, 5], fun _ => (7 : ℚ)⟩ id (fun r => r) 2 [9]
      "rel" "RMS" (some fun _ => true) 3 =
      ⟨[StageCmd.move [9] "rel", StageCmd.stop], 1,
       Except.ok ([[4, 5]], [(7 : ℚ)], [], true), false⟩ :=
  linear_scan_first_sample_break ℚ ℚ ⟨fun _ => true, fun _ => [4, 5], fun _ => (7 : ℚ)⟩
    id (fun r => r) 2 [9] "rel" (fun _ => true) 3 (by norm_num) (by norm_num) rfl rfl

end Brisect
